/-
Verification of the cache subsystem of the japanese-lexical-graph repository.

The development shallowly embeds, in Lean 4:
  * `Cache.get` / `Cache.set` / `Cache.delete` from `cache_helper.py`
    (an in-memory dict tier plus a SQLite durable tier, per-entry
    `expires_at` timestamps computed as `now + ttl`);
  * the cache-key construction expressions of `gemini_helper.py`
    (`analyze_relationship`), `ai_generation_single.py`
    (`generate_lexical_relations`) and `app.py` (`node_details`);
  * a reference/heap model of the in-memory tier capturing Python's
    object-reference semantics (the dict stores the very object the
    caller passed, and `get` hands that object back);
  * a trace model of the lock-protected critical sections of the
    in-memory tier, for the per-key ordering guarantees.

Modelling conventions:
  * `datetime.now()` is an abstract instant passed explicitly as a `Nat`
    (any fixed resolution; all comparisons in the source are strict
    `now > expires_at`, which is `exp < now` here).
  * JSON-serializable Python values are the inductive `JValue`.  Python's
    `None` is `JValue.null`; `Cache.get` returns the stored value or
    `None`, so the Lean `get` returns a `JValue`, with `JValue.null`
    doubling as the absent marker exactly as in Python.
  * `json.dumps` / `json.loads` (Python standard library, not repository
    code) are modelled abstractly: the durable value column holds a
    `DurPayload`, either the well-formed serialization of a `JValue`
    (which deserializes back to it, as Python's json round-trips
    serializable values) or corrupt text on which `json.loads` raises.
  * SQLite failures (`sqlite3` exceptions caught by the `try/except`
    blocks in the source) are modelled by a `durOk` flag on the state:
    when it is false every durable-tier operation takes its `except`
    branch, exactly as when the database is unavailable.
-/

import Mathlib

set_option maxRecDepth 4000

/-- JSON-serializable Python values (the values the cache stores).
Python `None` is `JValue.null`. -/
inductive JValue where
  | null : JValue
  | bool (b : Bool) : JValue
  | num (n : Int) : JValue
  | str (s : String) : JValue
  | arr (elems : List JValue) : JValue
  | obj (fields : List (String × JValue)) : JValue

/-- An entry of the in-memory tier: `self._cache[key] = {'value': ...,
'expires_at': ...}` (cache_helper.py lines 143-146).  Every write in the
source stores both fields, so the `'expires_at' in item` guard of line 90
is always true and is not modelled separately. -/
structure MemEntry where
  value : JValue
  expires_at : Nat

/-- The `value` TEXT column of the SQLite `cache` table.  `wellFormed v`
is `json.dumps v`; `corrupt` is any text `json.loads` raises on. -/
inductive DurPayload where
  | wellFormed (v : JValue) : DurPayload
  | corrupt : DurPayload

/-- Model of `json.loads` on a stored payload: the serialized value back, or an
exception (`none`) on corrupt text. -/
def jsonLoads : DurPayload → Option JValue
  | .wellFormed v => some v
  | .corrupt => none

/-- Model of `json.dumps` of a JSON-serializable value (cache_helper.py line 150). -/
def jsonDumps (v : JValue) : DurPayload := .wellFormed v

/-- A row of the SQLite `cache` table: `(key, value, expires_at)`.
`expires_at` is stored as `isoformat()` text and read back with
`fromisoformat`, an exact round trip, so it is modelled as the instant
itself. -/
structure DurEntry where
  payload : DurPayload
  expires_at : Nat

/-- The whole state of one `Cache` object: the in-memory dict, the SQLite
table, and whether SQLite operations currently succeed (`durOk = false`
models every `sqlite3` call raising, caught by the source's
`try/except`). -/
structure CacheState where
  mem : String → Option MemEntry
  dur : String → Option DurEntry
  durOk : Bool

/-- A fresh cache with both tiers empty (a new `Cache()` over an empty
database). -/
def CacheState.empty : CacheState :=
  { mem := fun _ => none, dur := fun _ => none, durOk := true }

/-- Dict update `self._cache[key] = item`. -/
def memInsert (m : String → Option MemEntry) (key : String) (item : MemEntry) :
    String → Option MemEntry :=
  fun k => if k = key then some item else m k

/-- Dict removal `del self._cache[key]`. -/
def memRemove (m : String → Option MemEntry) (key : String) :
    String → Option MemEntry :=
  fun k => if k = key then none else m k

/-- SQL `INSERT OR REPLACE INTO cache (key, value, expires_at)`. -/
def durInsert (d : String → Option DurEntry) (key : String) (row : DurEntry) :
    String → Option DurEntry :=
  fun k => if k = key then some row else d k

/-- SQL `DELETE FROM cache WHERE key = ?`. -/
def durRemove (d : String → Option DurEntry) (key : String) :
    String → Option DurEntry :=
  fun k => if k = key then none else d k

/-- Embedding of `Cache.delete` (cache_helper.py lines 166-190): remove the key from
the dict, then try to delete the row; a SQLite failure is caught and
logged. -/
def Cache.delete (st : CacheState) (key : String) : CacheState :=
  let st1 := { st with mem := memRemove st.mem key }
  if st1.durOk then
    { st1 with dur := durRemove st1.dur key }
  else
    st1

/-- The SQLite fallback of `Cache.get` (cache_helper.py lines 95-128),
reached when the in-memory tier did not return.  Inside one `try`: read
the row; if expired, `self.delete(key)` and return `None`; otherwise
`json.loads` the value (an exception falls to the `except` branch, which
returns `None`), store it in the dict with the same expiration, and
return it.  Any SQLite failure also returns `None`. -/
def Cache.sqliteGet (st : CacheState) (key : String) (now : Nat) :
    JValue × CacheState :=
  if st.durOk then
    match st.dur key with
    | some row =>
      if row.expires_at < now then
        (.null, Cache.delete st key)
      else
        match jsonLoads row.payload with
        | some parsed =>
          (parsed, { st with mem := memInsert st.mem key ⟨parsed, row.expires_at⟩ })
        | none => (.null, st)
    | none => (.null, st)
  else
    (.null, st)

/-- Embedding of `Cache.get` (cache_helper.py lines 75-128).  Under the lock: if the
key is in the dict and not expired, return its value; if present but
expired (`datetime.now() > expires_at`), delete it from the dict and fall
through.  Then the SQLite fallback.  The Python return value is either
the stored value or `None`; here `None` is `JValue.null`. -/
def Cache.get (st : CacheState) (key : String) (now : Nat) :
    JValue × CacheState :=
  match st.mem key with
  | some item =>
    if item.expires_at < now then
      Cache.sqliteGet { st with mem := memRemove st.mem key } key now
    else
      (item.value, st)
  | none => Cache.sqliteGet st key now

/-- Embedding of `Cache.set` (cache_helper.py lines 130-164): `expires_at = now +
timedelta(seconds=ex)`; write the dict entry under the lock
unconditionally; then try to serialize and `INSERT OR REPLACE` the row,
with any failure caught and logged. -/
def Cache.set (st : CacheState) (key : String) (value : JValue) (now : Nat)
    (ex : Nat) : CacheState :=
  let expires_at := now + ex
  let st1 := { st with mem := memInsert st.mem key ⟨value, expires_at⟩ }
  if st1.durOk then
    { st1 with dur := durInsert st1.dur key ⟨jsonDumps value, expires_at⟩ }
  else
    st1

/-- Cache key of `analyze_relationship` (gemini_helper.py line 272):
`f"gemini_relationship_{term1}_{term2}_{current_model_name}"`. -/
def analyze_relationship_cache_key (term1 term2 current_model_name : String) :
    String :=
  "gemini_relationship_" ++ term1 ++ "_" ++ term2 ++ "_" ++ current_model_name

/-- Cache key of `generate_lexical_relations` (ai_generation_single.py
line 91): `f"ai_generation_{node_id}_{model_name}"`. -/
def generate_lexical_relations_cache_key (node_id model_name : String) :
    String :=
  "ai_generation_" ++ node_id ++ "_" ++ model_name

/-- Cache key of the `node_details` endpoint (app.py line 606):
`f"node_details:{node_id}:{','.join(include)}:{language}"`, where the
include list is `request.args.get('include', 'basic,wikidata').split(',')`
in request order. -/
def node_details_cache_key (node_id : String) (includeList : List String)
    (language : String) : String :=
  "node_details:" ++ node_id ++ ":" ++ String.intercalate "," includeList
    ++ ":" ++ language

/-! Reference-semantics model of the in-memory tier.  In Python the dict
entry `{'value': value, ...}` written by `Cache.set` holds a *reference*
to the caller's object, and `Cache.get` returns that same reference; the
heap of mutable objects is modelled explicitly to express what a caller
observes after in-place mutation. -/

/-- Addresses of Python objects on the heap. -/
abbrev Addr := Nat

/-- The Python object heap: the current contents of each object, by
address. -/
abbrev Heap := List JValue

/-- An in-memory-tier entry as the dict really holds it: a reference. -/
structure RefMemEntry where
  value : Addr
  expires_at : Nat

/-- The in-memory tier with reference semantics. -/
abbrev RefMem := String → Option RefMemEntry

/-- An empty in-memory tier. -/
def refMemEmpty : RefMem := fun _ => none

/-- The memory-tier write of `Cache.set` (cache_helper.py lines 142-146):
stores the caller's reference, making no copy. -/
def refSet (m : RefMem) (key : String) (a : Addr) (now ex : Nat) : RefMem :=
  fun k => if k = key then some ⟨a, now + ex⟩ else m k

/-- The memory-tier fast path of `Cache.get` (cache_helper.py lines
86-93): returns the stored reference itself when the entry is live. -/
def refGet (m : RefMem) (key : String) (now : Nat) : Option Addr :=
  match m key with
  | some item => if item.expires_at < now then none else some item.value
  | none => none

/-- An in-place mutation of the object at address `a` (e.g. Python
`lst.append(...)` on a list the caller still references). -/
def heapWrite (h : Heap) (a : Addr) (v : JValue) : Heap := h.set a v

/-- The JSON document a caller reads through the result of `get`:
dereference the returned object in the current heap (`.null` on a
miss, as in Python where the miss marker is `None`). -/
def observed (h : Heap) (m : RefMem) (key : String) (now : Nat) : JValue :=
  match refGet m key now with
  | some a => h.getD a .null
  | none => .null

/-! Trace model of the in-memory tier under concurrency.  Every access to
`self._cache` in cache_helper.py happens inside `with self._lock:`
(lines 86-93, 118-122, 142-146, 174-176), so each critical section is
atomic; an interleaved execution of concurrent `get`/`set`/`delete`
calls is, as far as the in-memory tier is concerned, a total order
(a list) of these atomic actions. -/

/-- The in-memory tier alone. -/
abbrev MemTier := String → Option MemEntry

/-- One lock-protected critical section writing the in-memory tier:
the dict insert of `Cache.set`, the dict removal of `Cache.delete` (or
the eviction inside `Cache.get`), or the repopulation insert of the
SQLite fallback of `Cache.get`. -/
inductive MemAction where
  | setEntry (key : String) (v : JValue) (exp : Nat) : MemAction
  | delEntry (key : String) : MemAction
  | repopulate (key : String) (v : JValue) (exp : Nat) : MemAction

/-- Effect of one atomic critical section on the in-memory tier. -/
def applyAction (m : MemTier) : MemAction → MemTier
  | .setEntry key v exp => memInsert m key ⟨v, exp⟩
  | .delEntry key => memRemove m key
  | .repopulate key v exp => memInsert m key ⟨v, exp⟩

/-- The in-memory tier after a totally ordered trace of critical
sections. -/
def runTrace (m : MemTier) (tr : List MemAction) : MemTier :=
  tr.foldl applyAction m

/-- Whether an action writes the given key. -/
def touches (key : String) : MemAction → Bool
  | .setEntry k _ _ => k = key
  | .delEntry k => k = key
  | .repopulate k _ _ => k = key

/-- The lock-protected lookup section of `Cache.get` (cache_helper.py
lines 86-93), the step a `get` performs first when it acquires the lock:
a live entry's value, or eviction of an expired entry, or a miss. -/
def memGetStep (m : MemTier) (key : String) (now : Nat) :
    Option JValue × MemTier :=
  match m key with
  | some item =>
    if item.expires_at < now then (none, memRemove m key)
    else (some item.value, m)
  | none => (none, m)

/-! Theorems. -/

/-- When every row the durable tier may hold for the key is expired, the
SQLite fallback of `get` answers `None`, whether the row is still
physically present (it is then lazily deleted), already gone, or the
database is unavailable. -/
theorem sqliteGet_null_of_expired (st : CacheState) (key : String) (now : Nat)
    (hdur : ∀ row, st.dur key = some row → row.expires_at < now) :
    (Cache.sqliteGet st key now).1 = JValue.null := by
  unfold Cache.sqliteGet
  by_cases hok : st.durOk
  · simp only [hok, if_true]
    cases hd : st.dur key with
    | none => rfl
    | some row => simp [hdur row hd]
  · simp [hok]

/-- C1: `get` never returns an expired value.  Whenever the current time
is strictly after the expiration of whatever entry either tier holds for
the key — whether or not any expired entry has been physically removed —
`get` answers exactly as for an absent key, namely `None`. -/
theorem C1_get_never_returns_expired (st : CacheState) (key : String)
    (now : Nat)
    (hmem : ∀ item, st.mem key = some item → item.expires_at < now)
    (hdur : ∀ row, st.dur key = some row → row.expires_at < now) :
    (Cache.get st key now).1 = JValue.null := by
  unfold Cache.get
  cases hm : st.mem key with
  | none => exact sqliteGet_null_of_expired st key now hdur
  | some item =>
    simp only [hmem item hm, if_true]
    exact sqliteGet_null_of_expired _ key now hdur

/-- C1 witness: `set(k, v, ttl = 1 second)` at instant 0, then `get(k)`
two seconds later, answers absent. -/
theorem C1_witness :
    (Cache.get (Cache.set CacheState.empty "k" (JValue.str "v") 0 1) "k" 2).1
      = JValue.null := by
  apply C1_get_never_returns_expired
  · intro item h
    simp [Cache.set, CacheState.empty, memInsert] at h
    subst h
    decide
  · intro row h
    simp [Cache.set, CacheState.empty, durInsert, jsonDumps] at h
    subst h
    decide

/-- C2: round trip.  For any key, JSON-serializable value and TTL
`t > 0`, a `get` that follows `set(k, v, t)` with the clock not yet past
`now + t` (in particular an immediate `get`) returns a value deep-equal
to `v` — in the embedding, the very value, served from the in-memory
tier. -/
theorem C2_round_trip (st : CacheState) (key : String) (v : JValue)
    (now now' t : Nat) (ht : 0 < t) (h1 : now ≤ now') (h2 : now' ≤ now + t) :
    (Cache.get (Cache.set st key v now t) key now').1 = v := by
  unfold Cache.set Cache.get
  by_cases hok : st.durOk <;>
    simp [hok, memInsert, Nat.not_lt.mpr h2]

/-- C2 witness: a concrete round trip at TTL 3600. -/
theorem C2_witness :
    (Cache.get (Cache.set CacheState.empty "k" (JValue.num 7) 0 3600)
      "k" 1).1 = JValue.num 7 :=
  C2_round_trip _ _ _ _ _ _ (by decide) (by decide) (by decide)

/-- C3: tier repopulation.  When the key misses the in-memory tier but
the durable tier holds a live, deserializable row for it, `get` returns
the deserialized value, leaves an in-memory entry carrying that value
with the row's own expiration instant, and a later `get` (still before
expiry) is served that same value from the in-memory tier. -/
theorem C3_tier_repopulation (st : CacheState) (key : String)
    (row : DurEntry) (v : JValue) (now now' : Nat)
    (hmem : st.mem key = none) (hdur : st.dur key = some row)
    (hok : st.durOk = true) (hload : jsonLoads row.payload = some v)
    (hlive : ¬ row.expires_at < now) (hlive' : ¬ row.expires_at < now') :
    (Cache.get st key now).1 = v ∧
    (Cache.get st key now).2.mem key = some ⟨v, row.expires_at⟩ ∧
    (Cache.get (Cache.get st key now).2 key now').1 = v := by
  have hstep : Cache.get st key now
      = (v, { st with mem := memInsert st.mem key ⟨v, row.expires_at⟩ }) := by
    unfold Cache.get Cache.sqliteGet
    simp [hmem, hdur, hok, hload, hlive]
  refine ⟨by simp [hstep], ?_, ?_⟩
  · simp [hstep, memInsert]
  · rw [hstep]
    unfold Cache.get
    simp [memInsert, hlive']

/-- C3 witness: a cache whose in-memory tier is empty (a fresh process)
over a durable tier holding `"k" ↦ (json of 42, expires at 100)`;
`get` at instants 5 then 6 returns 42 both times, the first call having
repopulated the in-memory tier. -/
theorem C3_witness :
    (Cache.get
      { mem := fun _ => none,
        dur := fun k => if k = "k" then some ⟨jsonDumps (JValue.num 42), 100⟩
          else none,
        durOk := true } "k" 5).1 = JValue.num 42 ∧
    (Cache.get
      { mem := fun _ => none,
        dur := fun k => if k = "k" then some ⟨jsonDumps (JValue.num 42), 100⟩
          else none,
        durOk := true } "k" 5).2.mem "k" = some ⟨JValue.num 42, 100⟩ ∧
    (Cache.get (Cache.get
      { mem := fun _ => none,
        dur := fun k => if k = "k" then some ⟨jsonDumps (JValue.num 42), 100⟩
          else none,
        durOk := true } "k" 5).2 "k" 6).1 = JValue.num 42 :=
  C3_tier_repopulation _ _ ⟨jsonDumps (JValue.num 42), 100⟩ _ 5 6
    rfl (by simp) rfl rfl (by decide) (by decide)

/-- C4: fault isolation.  First half: with every durable-tier operation
failing (`durOk = false`, i.e. each `sqlite3` call raising into the
source's `except` branch), `set` still completes and a later `get` in
the same process still returns the value, served from the in-memory
tier.  Second half: a durable row whose payload `json.loads` rejects is
treated by `get` exactly as an absent key (`None` is returned, no fault
propagates; the Lean `get` is a total function, matching the source's
catch-all `except`). -/
theorem C4_fault_isolation (st : CacheState) (key : String) (v : JValue)
    (now now' t : Nat) (h2 : now' ≤ now + t)
    (st2 : CacheState) (key2 : String) (row : DurEntry)
    (hmem2 : st2.mem key2 = none) (hdur2 : st2.dur key2 = some row)
    (hcorrupt : jsonLoads row.payload = none) :
    (Cache.get (Cache.set { st with durOk := false } key v now t)
      key now').1 = v ∧
    (Cache.get st2 key2 now').1 = JValue.null := by
  constructor
  · unfold Cache.set Cache.get
    simp [memInsert, Nat.not_lt.mpr h2]
  · unfold Cache.get Cache.sqliteGet
    by_cases hok : st2.durOk
    · simp only [hmem2, hdur2, hok, if_true]
      by_cases hexp : row.expires_at < now' <;> simp [hexp, hcorrupt]
    · simp [hmem2, hok]

/-- C4 witness: a read-only durable tier does not stop `set`/`get` from
round-tripping 9 in memory, and a corrupt durable record reads as
absent. -/
theorem C4_witness :
    (Cache.get (Cache.set { CacheState.empty with durOk := false }
      "k" (JValue.num 9) 0 10) "k" 3).1 = JValue.num 9 ∧
    (Cache.get
      { mem := fun _ => none,
        dur := fun k => if k = "c" then some ⟨DurPayload.corrupt, 100⟩
          else none,
        durOk := true } "c" 3).1 = JValue.null :=
  C4_fault_isolation CacheState.empty "k" (JValue.num 9) 0 3 10 (by decide)
    _ "c" ⟨DurPayload.corrupt, 100⟩ rfl (by simp) rfl

/-- C5: last write wins.  Two consecutive `set` calls on one key leave a
single in-memory entry holding the second value with the second
expiration (a full replacement, TTL included); when the durable tier is
reachable its row is likewise the second serialization; `get` before
that expiry returns the second value, and never the first when they
differ. -/
theorem C5_last_write_wins (st : CacheState) (key : String) (v1 v2 : JValue)
    (n1 n2 now t1 t2 : Nat) (hle : now ≤ n2 + t2) :
    ((Cache.set (Cache.set st key v1 n1 t1) key v2 n2 t2).mem key
      = some ⟨v2, n2 + t2⟩) ∧
    (st.durOk = true →
      (Cache.set (Cache.set st key v1 n1 t1) key v2 n2 t2).dur key
        = some ⟨jsonDumps v2, n2 + t2⟩) ∧
    ((Cache.get (Cache.set (Cache.set st key v1 n1 t1) key v2 n2 t2)
      key now).1 = v2) ∧
    (v1 ≠ v2 →
      (Cache.get (Cache.set (Cache.set st key v1 n1 t1) key v2 n2 t2)
        key now).1 ≠ v1) := by
  have hget : (Cache.get (Cache.set (Cache.set st key v1 n1 t1) key v2 n2 t2)
      key now).1 = v2 := by
    unfold Cache.set Cache.get
    by_cases hok : st.durOk <;>
      simp [hok, memInsert, Nat.not_lt.mpr hle]
  refine ⟨?_, ?_, hget, ?_⟩
  · unfold Cache.set
    by_cases hok : st.durOk <;> simp [hok, memInsert]
  · intro hok
    unfold Cache.set
    simp [hok, durInsert]
  · intro hne
    rw [hget]
    exact fun h => hne h.symm

/-- C5 witness: `set(k, 1, 10)` then `set(k, 2, 10)` leaves only the
entry for 2, in both tiers, and `get` returns 2, not 1. -/
theorem C5_witness :
    ((Cache.set (Cache.set CacheState.empty "k" (JValue.num 1) 0 10)
      "k" (JValue.num 2) 1 10).mem "k" = some ⟨JValue.num 2, 11⟩) ∧
    (CacheState.empty.durOk = true →
      (Cache.set (Cache.set CacheState.empty "k" (JValue.num 1) 0 10)
        "k" (JValue.num 2) 1 10).dur "k"
        = some ⟨jsonDumps (JValue.num 2), 11⟩) ∧
    ((Cache.get (Cache.set (Cache.set CacheState.empty "k" (JValue.num 1) 0 10)
      "k" (JValue.num 2) 1 10) "k" 2).1 = JValue.num 2) ∧
    (JValue.num 1 ≠ JValue.num 2 →
      (Cache.get (Cache.set (Cache.set CacheState.empty "k" (JValue.num 1) 0 10)
        "k" (JValue.num 2) 1 10) "k" 2).1 ≠ JValue.num 1) :=
  C5_last_write_wins CacheState.empty "k" (JValue.num 1) (JValue.num 2)
    0 1 2 10 10 (by decide)

/-- C10: a cached null is indistinguishable from a miss.  `get` after
`set(k, None, t)` on a live entry returns `None` — the very result it
returns for a key never set, for a key whose entry has expired, and for
a deleted key — so no caller can tell a stored JSON null from
absence. -/
theorem C10_cached_null_indistinguishable (key : String) (v : JValue)
    (t now now0 nowLate : Nat) (ht : 0 < t) (hlive : now ≤ now0 + t)
    (hexp : now0 + t < nowLate) :
    (Cache.get (Cache.set CacheState.empty key JValue.null now0 t)
      key now).1 = JValue.null ∧
    (Cache.get CacheState.empty key now).1 = JValue.null ∧
    (Cache.get (Cache.set CacheState.empty key v now0 t)
      key nowLate).1 = JValue.null ∧
    (Cache.get (Cache.delete (Cache.set CacheState.empty key v now0 t) key)
      key now).1 = JValue.null := by
  refine ⟨?_, ?_, ?_, ?_⟩
  · unfold Cache.set Cache.get
    simp [CacheState.empty, memInsert, Nat.not_lt.mpr hlive]
  · unfold Cache.get Cache.sqliteGet
    simp [CacheState.empty]
  · unfold Cache.set Cache.get Cache.sqliteGet Cache.delete
    simp [CacheState.empty, memInsert, memRemove, durInsert, hexp]
  · unfold Cache.set Cache.delete Cache.get Cache.sqliteGet
    simp [CacheState.empty, memInsert, memRemove, durInsert, durRemove]

/-- C10 witness: with TTL 5 from instant 0, reading at instant 2 (and at
instant 9 for the expired case) all four absent-signalling results
coincide at `None`. -/
theorem C10_witness :
    (Cache.get (Cache.set CacheState.empty "k" JValue.null 0 5)
      "k" 2).1 = JValue.null ∧
    (Cache.get CacheState.empty "k" 2).1 = JValue.null ∧
    (Cache.get (Cache.set CacheState.empty "k" (JValue.num 3) 0 5)
      "k" 9).1 = JValue.null ∧
    (Cache.get (Cache.delete (Cache.set CacheState.empty "k" (JValue.num 3)
      0 5) "k") "k" 2).1 = JValue.null :=
  C10_cached_null_indistinguishable "k" (JValue.num 3) 5 2 0 9
    (by decide) (by decide) (by decide)

/-- A trace of critical sections none of which writes the key leaves the
in-memory tier's binding for that key unchanged. -/
theorem runTrace_untouched (key : String) (tr : List MemAction) :
    ∀ (m : MemTier), (∀ a ∈ tr, touches key a = false) →
      runTrace m tr key = m key := by
  induction tr with
  | nil => intro m _; rfl
  | cons a tl ih =>
    intro m h
    have ha := h a (List.mem_cons_self a tl)
    have htl : ∀ b ∈ tl, touches key b = false :=
      fun b hb => h b (List.mem_cons_of_mem a hb)
    show runTrace (applyAction m a) tl key = m key
    rw [ih (applyAction m a) htl]
    cases a with
    | setEntry k v e =>
      simp only [touches, decide_eq_false_iff_not] at ha
      simp [applyAction, memInsert, Ne.symm ha]
    | delEntry k =>
      simp only [touches, decide_eq_false_iff_not] at ha
      simp [applyAction, memRemove, Ne.symm ha]
    | repopulate k v e =>
      simp only [touches, decide_eq_false_iff_not] at ha
      simp [applyAction, memInsert, Ne.symm ha]

/-- C9: per-key ordering under the in-memory tier's single lock.  Every
access to the dict in the source runs inside `with self._lock:`, so an
interleaved concurrent execution is a total order of atomic critical
sections — concurrent `set` calls to a key resolve in whatever order
they acquired the lock.  Along any such total order in which a `set` of
the key completes and no later critical section writes that key, a `get`
whose lookup section runs afterwards (and before expiry) observes the
completed `set`'s value: no stale read past a completed write. -/
theorem C9_per_key_linearizability (m0 : MemTier) (pre post : List MemAction)
    (key : String) (v : JValue) (exp now : Nat)
    (hpost : ∀ a ∈ post, touches key a = false) (hlive : ¬ exp < now) :
    runTrace m0 (pre ++ MemAction.setEntry key v exp :: post) key
      = some ⟨v, exp⟩ ∧
    (memGetStep (runTrace m0 (pre ++ MemAction.setEntry key v exp :: post))
      key now).1 = some v := by
  have hmem : runTrace m0 (pre ++ MemAction.setEntry key v exp :: post) key
      = some ⟨v, exp⟩ := by
    have hsplit : runTrace m0 (pre ++ MemAction.setEntry key v exp :: post)
        = runTrace (applyAction (runTrace m0 pre)
            (MemAction.setEntry key v exp)) post := by
      simp [runTrace]
    rw [hsplit, runTrace_untouched key post _ hpost]
    simp [applyAction, memInsert]
  exact ⟨hmem, by simp [memGetStep, hmem, hlive]⟩

/-- C9 witness: in the interleaving where a write of 8 to `"k"` is
followed by critical sections of other keys only, the next lookup of
`"k"` observes 8. -/
theorem C9_witness :
    runTrace (fun _ => none)
      ([MemAction.setEntry "j" (JValue.num 1) 50] ++
        MemAction.setEntry "k" (JValue.num 8) 50 ::
        [MemAction.setEntry "other" (JValue.num 2) 50,
         MemAction.delEntry "j"]) "k" = some ⟨JValue.num 8, 50⟩ ∧
    (memGetStep (runTrace (fun _ => none)
      ([MemAction.setEntry "j" (JValue.num 1) 50] ++
        MemAction.setEntry "k" (JValue.num 8) 50 ::
        [MemAction.setEntry "other" (JValue.num 2) 50,
         MemAction.delEntry "j"])) "k" 3).1 = some (JValue.num 8) :=
  C9_per_key_linearizability (fun _ => none)
    [MemAction.setEntry "j" (JValue.num 1) 50]
    [MemAction.setEntry "other" (JValue.num 2) 50, MemAction.delEntry "j"]
    "k" (JValue.num 8) 50 3 (by decide) (by decide)

/-- C8 counterexample: the store does not hand out independent copies.
A caller stores a one-element JSON array (the object at heap address 0),
receives it back from `get`, and mutates it in place (appends an
element); the value observed through a subsequent `get` of the same key
has changed — refuting the claim that caller mutation cannot affect
later reads. -/
theorem C8_counterexample :
    observed (heapWrite [JValue.arr [JValue.num 1]] 0
        (JValue.arr [JValue.num 1, JValue.num 2]))
      (refSet refMemEmpty "k" 0 0 10) "k" 5
    ≠ observed [JValue.arr [JValue.num 1]]
      (refSet refMemEmpty "k" 0 0 10) "k" 5 := by
  simp [observed, refGet, refSet, refMemEmpty, heapWrite]

/-- C8 amended: the in-memory tier stores and returns the caller's
object by reference, making no copy: `get` on a live entry yields the
very address `set` stored, and an in-place mutation of that object
through the caller's reference is visible in what every subsequent `get`
observes. -/
theorem C8_amended_reference_sharing (m : RefMem) (key : String) (a : Addr)
    (now ex now' : Nat) (hlive : ¬ now + ex < now')
    (h : Heap) (v' : JValue) (ha : a < h.length) :
    refGet (refSet m key a now ex) key now' = some a ∧
    observed (heapWrite h a v') (refSet m key a now ex) key now' = v' := by
  have hg : refGet (refSet m key a now ex) key now' = some a := by
    simp [refGet, refSet, hlive]
  refine ⟨hg, ?_⟩
  simp [observed, hg, heapWrite, List.getD, List.getElem?_set_eq_of_lt, ha]

/-- C8 amended witness: storing the object at address 0 of a
single-object heap and mutating it to the array `[1, 2]` makes the next
`get` observe `[1, 2]`. -/
theorem C8_amended_witness :
    refGet (refSet refMemEmpty "k" 0 0 10) "k" 5 = some 0 ∧
    observed (heapWrite [JValue.arr [JValue.num 1]] 0
        (JValue.arr [JValue.num 1, JValue.num 2]))
      (refSet refMemEmpty "k" 0 0 10) "k" 5
      = JValue.arr [JValue.num 1, JValue.num 2] :=
  C8_amended_reference_sharing refMemEmpty "k" 0 0 10 5 (by decide)
    [JValue.arr [JValue.num 1]] (JValue.arr [JValue.num 1, JValue.num 2])
    (by decide)

/-- Splitting at a separator character that occurs in neither left part
is unambiguous: the parts on each side of the separator coincide. -/
theorem sep_append_cancel {α : Type} (c : α) :
    ∀ (a a' b b' : List α), c ∉ a → c ∉ a' →
      a ++ c :: b = a' ++ c :: b' → a = a' ∧ b = b' := by
  intro a
  induction a with
  | nil =>
    intro a' b b' _ ha' h
    cases a' with
    | nil => simpa using h
    | cons x xs =>
      simp only [List.nil_append, List.cons_append, List.cons.injEq] at h
      exact absurd (h.1 ▸ List.mem_cons_self x xs) ha'
  | cons x xs ih =>
    intro a' b b' ha ha' h
    cases a' with
    | nil =>
      simp only [List.nil_append, List.cons_append, List.cons.injEq] at h
      exact absurd (h.1.symm ▸ List.mem_cons_self x xs) ha
    | cons y ys =>
      simp only [List.cons_append, List.cons.injEq] at h
      obtain ⟨rfl, h2⟩ := h
      have hxs : c ∉ xs := fun hc => ha (List.mem_cons_of_mem x hc)
      have hys : c ∉ ys := fun hc => ha' (List.mem_cons_of_mem x hc)
      obtain ⟨rfl, rfl⟩ := ih ys b b' hxs hys h2
      exact ⟨rfl, rfl⟩

/-- C6 counterexample: the underscore-joined keys are not injective.
The distinct subject pairs `("a_b", "c")` and `("a", "b_c")` — and the
distinct `(node_id, model_name)` pairs of the same shape — produce
byte-identical cache keys under the same model, refuting the claim that
any difference in a parameter produces a different key. -/
theorem C6_counterexample :
    (analyze_relationship_cache_key "a_b" "c" "m"
        = analyze_relationship_cache_key "a" "b_c" "m") ∧
    (("a_b", "c") ≠ (("a", "b_c") : String × String)) ∧
    (generate_lexical_relations_cache_key "a_b" "c"
        = generate_lexical_relations_cache_key "a" "b_c") ∧
    (("a_b", "c") ≠ (("a", "b_c") : String × String)) := by
  decide

/-- C6 amended: key construction is deterministic — identical
(operation, subject, parameters) tuples always yield byte-identical keys
— and it is injective provided the subject terms contain no underscore,
the delimiter the f-strings join with; subjects containing `'_'` can
collide (see the counterexample).  Both key families of the claim are
covered: relationship-analysis keys determine `(term1, term2,
model_name)` and AI-generation keys determine `(node_id, model_name)`
exactly when the tuples agree. -/
theorem C6_amended_injective_without_delimiter (t1 t2 m t1' t2' m' : String)
    (h1 : '_' ∉ t1.data) (h2 : '_' ∉ t2.data)
    (h1' : '_' ∉ t1'.data) (h2' : '_' ∉ t2'.data) :
    (analyze_relationship_cache_key t1 t2 m
        = analyze_relationship_cache_key t1' t2' m'
      ↔ (t1 = t1' ∧ t2 = t2' ∧ m = m')) ∧
    (generate_lexical_relations_cache_key t1 m
        = generate_lexical_relations_cache_key t1' m'
      ↔ (t1 = t1' ∧ m = m')) := by
  constructor
  · constructor
    · intro h
      have hd := congrArg String.data h
      simp only [analyze_relationship_cache_key, String.data_append,
        List.append_assoc] at hd
      simp only [List.singleton_append] at hd
      have hd2 := List.append_cancel_left hd
      obtain ⟨e1, hd3⟩ := sep_append_cancel '_' _ _ _ _ h1 h1' hd2
      obtain ⟨e2, e3⟩ := sep_append_cancel '_' _ _ _ _ h2 h2' hd3
      exact ⟨String.ext e1, String.ext e2, String.ext e3⟩
    · rintro ⟨rfl, rfl, rfl⟩
      rfl
  · constructor
    · intro h
      have hd := congrArg String.data h
      simp only [generate_lexical_relations_cache_key, String.data_append,
        List.append_assoc] at hd
      simp only [List.singleton_append] at hd
      have hd2 := List.append_cancel_left hd
      obtain ⟨e1, e2⟩ := sep_append_cancel '_' _ _ _ _ h1 h1' hd2
      exact ⟨String.ext e1, String.ext e2⟩
    · rintro ⟨rfl, rfl⟩
      rfl

/-- C6 amended witness: at underscore-free subjects, key equality holds
exactly for equal tuples. -/
theorem C6_amended_witness :
    ((analyze_relationship_cache_key "dog" "cat" "m1"
        = analyze_relationship_cache_key "fox" "owl" "m2"
      ↔ (("dog" : String) = "fox" ∧ ("cat" : String) = "owl"
          ∧ ("m1" : String) = "m2")) ∧
    (generate_lexical_relations_cache_key "dog" "m1"
        = generate_lexical_relations_cache_key "fox" "m2"
      ↔ (("dog" : String) = "fox" ∧ ("m1" : String) = "m2"))) :=
  C6_amended_injective_without_delimiter "dog" "cat" "m1" "fox" "owl" "m2"
    (by decide) (by decide) (by decide) (by decide)

/-- C7 counterexample: the `node_details` key applies no canonical-order
normalization to the include-fields list.  The same two fields in the
two different orders — permutations of one another — produce different
cache keys, refuting the claim that logically-equal requests with
reordered fields share a key. -/
theorem C7_counterexample :
    (["basic", "wikidata"].Perm ["wikidata", "basic"]) ∧
    node_details_cache_key "X" ["basic", "wikidata"] "japanese"
      ≠ node_details_cache_key "X" ["wikidata", "basic"] "japanese" := by
  decide

/-- C7 amended: the include-fields list enters the key comma-joined in
request order, with no sorting or other normalization; for a fixed node
and language, two keys coincide exactly when the comma-joined field
strings coincide, so differently-ordered but equal field sets produce
different keys and miss the cache. -/
theorem C7_amended_join_in_request_order (node_id : String)
    (inc inc' : List String) (language : String) :
    node_details_cache_key node_id inc language
      = node_details_cache_key node_id inc' language
    ↔ String.intercalate "," inc = String.intercalate "," inc' := by
  constructor
  · intro h
    have hd := congrArg String.data h
    simp only [node_details_cache_key, String.data_append,
      List.append_assoc] at hd
    have hd2 := List.append_cancel_left (List.append_cancel_left
      (List.append_cancel_left hd))
    exact String.ext (List.append_cancel_right hd2)
  · intro h
    unfold node_details_cache_key
    rw [h]
